import Mathlib

/-!
Storage page cache (`be/src/olap/page_cache.h`) and the `collect` aggregate factory
(`be/src/vec/aggregate_functions/aggregate_function_collect.cpp`)

A shallow embedding of the cache-key codec, the page-type routing, the scoped cache
handle, the owned-buffer page and the `collect_list` / `collect_set` dispatch, with the
properties established about them.
-/

namespace doris

/-! ## Bytes and object representations -/

/-- One `char` of a `std::string`: eight bits, compared as `unsigned char`. -/
abbrev Byte := Fin 256

/-- Byte order of the host; `(char*)&x` exposes the object representation in this order. -/
inductive ByteOrder where
  | littleEndian
  | bigEndian
  deriving DecidableEq, Repr

/-- Byte number `j` (counted from the least significant one) of the unsigned value `v`. -/
def byteAt (v j : Nat) : Byte :=
  ⟨v / 256 ^ j % 256, Nat.mod_lt _ (by decide)⟩

/-- The `n` bytes of an unsigned integer object in memory order: what
`append((char*)&x, sizeof(x))` copies. -/
def objectBytes (e : ByteOrder) (n v : Nat) : List Byte :=
  match e with
  | .littleEndian => (List.range n).map (byteAt v)
  | .bigEndian => ((List.range n).map (byteAt v)).reverse

/-- `sizeof(size_t)` and `sizeof(int64_t)` on the 64-bit targets of the engine. -/
def sizeof_u64 : Nat := 8

/-- The value stored in a `size_t`: conversion to the unsigned 64-bit range. -/
def toSizeT (v : Nat) : Nat := v % 2 ^ 64

/-- The bit pattern of an `int64_t`, read as an unsigned value (two's complement). -/
def int64Bits (v : Int) : Nat := (v % 2 ^ 64).toNat

/-- Value denoted by a little-endian byte sequence. -/
def leValue : List Byte → Nat
  | [] => 0
  | b :: bs => b.val + 256 * leValue bs

/-- Value denoted by a byte sequence laid out in the given byte order. -/
def valueOf (e : ByteOrder) (bs : List Byte) : Nat :=
  match e with
  | .littleEndian => leValue bs
  | .bigEndian => leValue bs.reverse

/-! ## `StoragePageCache::CacheKey` -/

/-- `struct CacheKey { std::string fname; size_t fsize; int64_t offset; }`. -/
structure CacheKey where
  fname : List Byte
  fsize : Nat
  offset : Int
  deriving DecidableEq, Repr

/-- The fields hold values of their C++ types: `size_t` and `int64_t`. -/
def CacheKey.inRange (k : CacheKey) : Prop :=
  k.fsize < 2 ^ 64 ∧ -(2 ^ 63) ≤ k.offset ∧ k.offset < 2 ^ 63

instance (k : CacheKey) : Decidable k.inRange := by
  unfold CacheKey.inRange; exact inferInstance

/-- `CacheKey::encode`: copy `fname`, append the bytes of `fsize`, append the bytes of
`offset`. -/
def CacheKey.encode (e : ByteOrder) (k : CacheKey) : List Byte :=
  let key_buf := k.fname
  let key_buf := key_buf ++ objectBytes e sizeof_u64 (toSizeT k.fsize)
  let key_buf := key_buf ++ objectBytes e sizeof_u64 (int64Bits k.offset)
  key_buf

/-- The lexicographic order on the triples `(fname, fsize, offset)`: names compared
bytewise, sizes and offsets numerically. -/
def CacheKey.tupleLt (k1 k2 : CacheKey) : Prop :=
  List.Lex (· < ·) k1.fname k2.fname ∨
    (k1.fname = k2.fname ∧
      (k1.fsize < k2.fsize ∨ (k1.fsize = k2.fsize ∧ k1.offset < k2.offset)))

instance (k1 k2 : CacheKey) : Decidable (k1.tupleLt k2) := by
  unfold CacheKey.tupleLt; exact inferInstance

/-! ## Page-type routing: `StoragePageCache::_get_page_cache` -/

/-- The three enumerators of `segment_v2::PageTypePB` named by the `case` labels of
`_get_page_cache`. The generated header that assigns their values is not part of the
sources at hand, so the values are carried as parameters; a `page_type` is the integer
value of the protobuf enum. -/
structure PageTypeLabels where
  DATA_PAGE : Int
  INDEX_PAGE : Int
  PRIMARY_KEY_INDEX_PAGE : Int
  deriving DecidableEq, Repr

/-- Case labels of one `switch` are pairwise different (the compiler rejects duplicates). -/
def PageTypeLabels.distinct (l : PageTypeLabels) : Prop :=
  l.DATA_PAGE ≠ l.INDEX_PAGE ∧ l.DATA_PAGE ≠ l.PRIMARY_KEY_INDEX_PAGE ∧
    l.INDEX_PAGE ≠ l.PRIMARY_KEY_INDEX_PAGE

/-- The object thrown by `throw Exception(Status::FatalError(msg))`. -/
structure FatalError where
  msg : String
  deriving DecidableEq, Repr

/-- The members of `StoragePageCache`; `Policy` is what the three `unique_ptr::get()` calls
hand out (an `LRUCachePolicy*`). -/
structure StoragePageCache (Policy : Type) where
  _index_cache_percentage : Int := 0
  _data_page_cache : Policy
  _index_page_cache : Policy
  _pk_index_page_cache : Policy

/-- The `switch` statement of `_get_page_cache`: `some r` when a branch leaves the function
with `r`, `none` when control would fall out of the `switch`. -/
def StoragePageCache.switch_page_type {Policy : Type} (l : PageTypeLabels)
    (c : StoragePageCache Policy) (page_type : Int) : Option (Except FatalError Policy) :=
  if page_type = l.DATA_PAGE then some (.ok c._data_page_cache)
  else if page_type = l.INDEX_PAGE then some (.ok c._index_page_cache)
  else if page_type = l.PRIMARY_KEY_INDEX_PAGE then some (.ok c._pk_index_page_cache)
  else some (.error ⟨"get error type page cache"⟩)

/-- `StoragePageCache::_get_page_cache`: the `switch`, then the trailing `throw`. -/
def StoragePageCache._get_page_cache {Policy : Type} (l : PageTypeLabels)
    (c : StoragePageCache Policy) (page_type : Int) : Except FatalError Policy :=
  match c.switch_page_type l page_type with
  | some r => r
  | none => .error ⟨"__builtin_unreachable"⟩

/-- `StoragePageCache::mem_tracker`: `_get_page_cache(page_type)->mem_tracker()`; the
accessor of the policy is a parameter. -/
def StoragePageCache.mem_tracker {Policy Tracker : Type} (l : PageTypeLabels)
    (policy_mem_tracker : Policy → Tracker) (c : StoragePageCache Policy)
    (page_type : Int) : Except FatalError Tracker :=
  match c._get_page_cache l page_type with
  | .ok p => .ok (policy_mem_tracker p)
  | .error err => .error err

/-! ## `PageCacheHandle` -/

/-- The two members of `PageCacheHandle`; a pointer is `none` when it is `nullptr`.
The default values are the default member initialisers. -/
structure PageCacheHandle (Cache Entry : Type) where
  _cache : Option Cache := none
  _handle : Option Entry := none
  deriving DecidableEq, Repr

/-- A call made on a cache policy. -/
inductive CacheCall (Cache Entry : Type) where
  | release (cache : Cache) (handle : Entry)
  deriving DecidableEq, Repr

/-- `PageCacheHandle() = default`. -/
def PageCacheHandle.default_ctor (Cache Entry : Type) : PageCacheHandle Cache Entry := {}

/-- `PageCacheHandle(LRUCachePolicy* cache, Cache::Handle* handle)`. -/
def PageCacheHandle.ctor {Cache Entry : Type} (cache : Option Cache) (handle : Option Entry) :
    PageCacheHandle Cache Entry :=
  { _cache := cache, _handle := handle }

/-- `~PageCacheHandle()`: the calls it makes on cache policies, in order; `none` when it
would call through a null `_cache`, which has no defined behaviour. -/
def PageCacheHandle.dtor {Cache Entry : Type} (h : PageCacheHandle Cache Entry) :
    Option (List (CacheCall Cache Entry)) :=
  match h._handle with
  | some entry =>
    match h._cache with
    | some cache => some [CacheCall.release cache entry]
    | none => none
  | none => some []

/-- `std::swap(a, b)`: the new values of `a` and `b`. -/
def std_swap {α : Type} (a b : α) : α × α := (b, a)

/-- The body shared by the move constructor and the move assignment: two member swaps.
Returns the new states of `*this` and of `other`. -/
def PageCacheHandle.swap_members {Cache Entry : Type}
    (this other : PageCacheHandle Cache Entry) :
    PageCacheHandle Cache Entry × PageCacheHandle Cache Entry :=
  let c := std_swap this._cache other._cache
  let h := std_swap this._handle other._handle
  ({ _cache := c.1, _handle := h.1 }, { _cache := c.2, _handle := h.2 })

/-- `PageCacheHandle(PageCacheHandle&& other)`: the members of the new object start from
their default initialisers, then are swapped with those of `other`. Returns the new object
and the new state of `other`. -/
def PageCacheHandle.move_ctor {Cache Entry : Type} (other : PageCacheHandle Cache Entry) :
    PageCacheHandle Cache Entry × PageCacheHandle Cache Entry :=
  PageCacheHandle.swap_members {} other

/-- `operator=(PageCacheHandle&& other)` on two different objects. Returns the new states
of `*this` and of `other`. -/
def PageCacheHandle.move_assign {Cache Entry : Type}
    (this other : PageCacheHandle Cache Entry) :
    PageCacheHandle Cache Entry × PageCacheHandle Cache Entry :=
  PageCacheHandle.swap_members this other

/-- The entry references held by a list of handles (null pointers hold none). -/
def heldEntries {Cache Entry : Type} (hs : List (PageCacheHandle Cache Entry)) :
    List (Cache × Entry) :=
  hs.filterMap fun h =>
    match h._cache, h._handle with
    | some c, some e => some (c, e)
    | _, _ => none

/-! ## `MemoryTrackedPageWithPageEntity` -/

/-- The members of an owned-buffer page that `reset_size` can see: the buffer pointer and
logical size of `MemoryTrackedPageBase<char*>`, and the capacity. -/
structure MemoryTrackedPageWithPageEntity where
  _data : Nat
  _size : Nat := 0
  _capacity : Nat := 0
  deriving DecidableEq, Repr

/-- `size()`. -/
def MemoryTrackedPageWithPageEntity.size (p : MemoryTrackedPageWithPageEntity) : Nat :=
  p._size

/-- `capacity()`. -/
def MemoryTrackedPageWithPageEntity.capacity (p : MemoryTrackedPageWithPageEntity) : Nat :=
  p._capacity

/-- A failed `DCHECK`. -/
structure CheckFailure where
  condition : String
  deriving DecidableEq, Repr

/-- `reset_size(n)`: `DCHECK(n <= _capacity); _size = n;`. `dcheck_on` tells whether the
build evaluates `DCHECK` (it compiles to nothing under `NDEBUG`). -/
def MemoryTrackedPageWithPageEntity.reset_size (dcheck_on : Bool)
    (p : MemoryTrackedPageWithPageEntity) (n : Nat) :
    Except CheckFailure MemoryTrackedPageWithPageEntity :=
  if dcheck_on && !decide (n ≤ p._capacity) then
    .error ⟨"n <= this->_capacity"⟩
  else
    .ok { p with _size := n }

/-! ## `create_aggregate_function_collect` -/

/-- What the translation unit takes from headers that are not part of the sources at hand:
the `TypeIndex` enumeration and the argument types, `remove_nullable`, the `idx` a
`WhichDataType` is built with and its predicates, the type lists the macros
`FOR_NUMERIC_TYPES` and `FOR_DECIMAL_TYPES` enumerate, and the error code. -/
structure TypeEnv where
  TypeIndex : Type
  decEq : DecidableEq TypeIndex
  DataTypePtr : Type
  ErrorCode : Type
  INTERNAL_ERROR : ErrorCode
  remove_nullable : DataTypePtr → DataTypePtr
  idx : DataTypePtr → TypeIndex
  FOR_NUMERIC_TYPES : List TypeIndex
  FOR_DECIMAL_TYPES : List TypeIndex
  is_date_or_datetime : TypeIndex → Bool
  is_date_v2 : TypeIndex → Bool
  is_date_time_v2 : TypeIndex → Bool
  is_ipv6 : TypeIndex → Bool
  is_ipv4 : TypeIndex → Bool
  is_string : TypeIndex → Bool

instance (env : TypeEnv) : DecidableEq env.TypeIndex := env.decEq

/-- `Exception(code, msg)`. -/
structure Exception (env : TypeEnv) where
  code : env.ErrorCode
  msg : String

/-- The template argument `T` of `do_create_agg_function_collect`: the C++ type named like
a `TypeIndex` enumerator (from `DISPATCH(TYPE)`), or one of the types written out in
`create_aggregate_function_collect_impl`. -/
inductive ElemType (env : TypeEnv) where
  | named (TYPE : env.TypeIndex)
  | Int64
  | UInt32
  | UInt64
  | IPv6
  | IPv4
  | StringRef
  | void

/-- `std::is_same_v<T, void>`. -/
def ElemType.is_void {env : TypeEnv} : ElemType env → Bool
  | .void => true
  | _ => false

/-- The data class template the function is instantiated with. -/
inductive CollectData where
  | AggregateFunctionCollectSetData
  | AggregateFunctionCollectListData
  deriving DecidableEq, Repr

/-- The instantiation
`AggregateFunctionCollect<Data<T, HasLimit>, HasLimit>` handed to the creator. -/
structure CollectTemplate (env : TypeEnv) where
  data : CollectData
  T : ElemType env
  HasLimit : Bool

/-- The signature of `creator_without_type::create<F>(argument_types, result_is_nullable)`,
which is defined in a header outside the sources at hand: it yields a function or
throws. -/
abbrev Creator (env : TypeEnv) (Fn : Type) : Type :=
  CollectTemplate env → List env.DataTypePtr → Bool → Except (Exception env) Fn

/-- `do_create_agg_function_collect<T, HasLimit>`. -/
def do_create_agg_function_collect {env : TypeEnv} {Fn : Type} (create : Creator env Fn)
    (T : ElemType env) (HasLimit : Bool) (distinct : Bool)
    (argument_types : List env.DataTypePtr) (result_is_nullable : Bool) :
    Except (Exception env) Fn :=
  if distinct then
    if T.is_void then
      .error ⟨env.INTERNAL_ERROR, "unexpected type for collect, please check the input"⟩
    else
      create ⟨.AggregateFunctionCollectSetData, T, HasLimit⟩ argument_types
        result_is_nullable
  else
    create ⟨.AggregateFunctionCollectListData, T, HasLimit⟩ argument_types
      result_is_nullable

/-- The expansion of `FOR_..._TYPES(DISPATCH)`: one `if (which.idx == TypeIndex::TYPE)
return ...;` per listed type, in order; `none` when no test succeeds. -/
def DISPATCH {env : TypeEnv} {R : Type} (which_idx : env.TypeIndex)
    (ret : ElemType env → R) : List env.TypeIndex → Option R
  | [] => none
  | TYPE :: rest =>
    if which_idx = TYPE then some (ret (.named TYPE)) else DISPATCH which_idx ret rest

/-- `create_aggregate_function_collect_impl<HasLimit>`. The outer `Option` is `none` when
`argument_types[0]` is evaluated on an empty vector, which has no defined behaviour. -/
def create_aggregate_function_collect_impl {env : TypeEnv} {Fn : Type}
    (create : Creator env Fn) (HasLimit : Bool) (name : String)
    (argument_types : List env.DataTypePtr) (result_is_nullable : Bool) :
    Option (Except (Exception env) Fn) :=
  let distinct : Bool := name == "collect_set"
  match argument_types[0]? with
  | none => none
  | some arg0 =>
    let which_idx := env.idx (env.remove_nullable arg0)
    let ret := fun (T : ElemType env) =>
      do_create_agg_function_collect create T HasLimit distinct argument_types
        result_is_nullable
    match DISPATCH which_idx ret env.FOR_NUMERIC_TYPES with
    | some r => some r
    | none =>
    match DISPATCH which_idx ret env.FOR_DECIMAL_TYPES with
    | some r => some r
    | none =>
      if env.is_date_or_datetime which_idx then some (ret .Int64)
      else if env.is_date_v2 which_idx then some (ret .UInt32)
      else if env.is_date_time_v2 which_idx then some (ret .UInt64)
      else if env.is_ipv6 which_idx then some (ret .IPv6)
      else if env.is_ipv4 which_idx then some (ret .IPv4)
      else if env.is_string which_idx then some (ret .StringRef)
      else some (ret .void)

/-- `create_aggregate_function_collect` (the `attr` argument is not used by the body). -/
def create_aggregate_function_collect {env : TypeEnv} {Fn : Type}
    (create : Creator env Fn) (name : String)
    (argument_types : List env.DataTypePtr) (result_is_nullable : Bool) :
    Option (Except (Exception env) Fn) :=
  if argument_types.length = 1 then
    create_aggregate_function_collect_impl create false name argument_types
      result_is_nullable
  else if argument_types.length = 2 then
    create_aggregate_function_collect_impl create true name argument_types
      result_is_nullable
  else
    some (.error
      ⟨env.INTERNAL_ERROR, "unexpected type for collect, please check the input"⟩)

/-- The first argument type is none of the kinds `create_aggregate_function_collect_impl`
has a branch for. -/
def unsupported_for_set (env : TypeEnv) (t : env.DataTypePtr) : Prop :=
  let i := env.idx (env.remove_nullable t)
  i ∉ env.FOR_NUMERIC_TYPES ∧ i ∉ env.FOR_DECIMAL_TYPES ∧
    env.is_date_or_datetime i = false ∧ env.is_date_v2 i = false ∧
    env.is_date_time_v2 i = false ∧ env.is_ipv4 i = false ∧ env.is_ipv6 i = false ∧
    env.is_string i = false

/-! ## A concrete environment for the factory -/

/-- A small type environment to evaluate the factory in: types are numbers, a nullable
type is its base type plus a multiple of 100. -/
def sampleEnv : TypeEnv where
  TypeIndex := Nat
  decEq := inferInstance
  DataTypePtr := Nat
  ErrorCode := Nat
  INTERNAL_ERROR := 6
  remove_nullable := fun t => t % 100
  idx := fun t => t
  FOR_NUMERIC_TYPES := [1, 2, 3]
  FOR_DECIMAL_TYPES := [4, 5]
  is_date_or_datetime := fun i => i == 6
  is_date_v2 := fun i => i == 7
  is_date_time_v2 := fun i => i == 8
  is_ipv6 := fun i => i == 9
  is_ipv4 := fun i => i == 10
  is_string := fun i => i == 11

/-- A creator that always succeeds and reports the instantiation it was asked for. -/
def sampleCreate : Creator sampleEnv (CollectData × Bool × Nat) :=
  fun t a _ => .ok (t.data, t.HasLimit, a.length)

/-- One argument type: a nullable type of index 12, which no branch of the dispatch covers. -/
def sampleArgs : List sampleEnv.DataTypePtr := ([112] : List Nat)

/-! ## Properties of the byte representation -/

theorem objectBytes_length (e : ByteOrder) (n v : Nat) : (objectBytes e n v).length = n := by
  cases e <;> simp [objectBytes]

theorem byteAt_succ (v j : Nat) : byteAt v (j + 1) = byteAt (v / 256) j := by
  apply Fin.ext
  simp [byteAt, pow_succ, Nat.div_div_eq_div_mul, Nat.mul_comm]

theorem leValue_map_byteAt (n : Nat) : ∀ v : Nat,
    leValue ((List.range n).map (byteAt v)) = v % 256 ^ n := by
  induction n with
  | zero => intro v; simp [leValue, Nat.mod_one]
  | succ n ih =>
    intro v
    have hfun : (byteAt v ∘ Nat.succ) = byteAt (v / 256) := by
      funext j
      exact byteAt_succ v j
    rw [List.range_succ_eq_map, List.map_cons, List.map_map, hfun, leValue, ih,
      pow_succ', Nat.mod_mul]
    simp [byteAt]

theorem valueOf_objectBytes (e : ByteOrder) (n v : Nat) :
    valueOf e (objectBytes e n v) = v % 256 ^ n := by
  cases e <;> simp [valueOf, objectBytes, leValue_map_byteAt]

theorem objectBytes_inj (e : ByteOrder) (n v w : Nat)
    (h : objectBytes e n v = objectBytes e n w) : v % 256 ^ n = w % 256 ^ n := by
  rw [← valueOf_objectBytes e n v, ← valueOf_objectBytes e n w, h]

theorem toSizeT_of_lt (v : Nat) (h : v < 2 ^ 64) : toSizeT v = v :=
  Nat.mod_eq_of_lt h

theorem int64Bits_lt (v : Int) : int64Bits v < 2 ^ 64 := by
  unfold int64Bits
  omega

theorem int64Bits_cast (v : Int) : (int64Bits v : Int) = v % 2 ^ 64 := by
  unfold int64Bits
  omega

theorem CacheKey.encode_eq (e : ByteOrder) (k : CacheKey) :
    k.encode e = k.fname ++ objectBytes e 8 (toSizeT k.fsize)
      ++ objectBytes e 8 (int64Bits k.offset) := rfl

theorem CacheKey.encode_length (e : ByteOrder) (k : CacheKey) :
    (k.encode e).length = k.fname.length + 16 := by
  simp [CacheKey.encode_eq, objectBytes_length]

/-! ## The cache-key codec -/

/-- C1: for every cache key whose fields hold a `size_t` and an `int64_t`, `encode` is the
whole of `fname`, then eight bytes that denote `fsize` in the host byte order, then eight
bytes that denote the two's-complement bit pattern of `offset` in the host byte order; the
result has length `|fname| + 16` and `fname` is a prefix of it. -/
theorem CacheKey.encode_layout (e : ByteOrder) (k : CacheKey) (hk : k.inRange) :
    ∃ s o : List Byte,
      k.encode e = k.fname ++ s ++ o ∧
      s = objectBytes e 8 k.fsize ∧ o = objectBytes e 8 (int64Bits k.offset) ∧
      s.length = 8 ∧ o.length = 8 ∧
      valueOf e s = k.fsize ∧
      (valueOf e o : Int) = (if 0 ≤ k.offset then k.offset else k.offset + 2 ^ 64) ∧
      (k.encode e).length = k.fname.length + 16 ∧
      k.fname <+: k.encode e ∧
      (k.encode e).take k.fname.length = k.fname := by
  obtain ⟨hs, hlo, hhi⟩ := hk
  refine ⟨objectBytes e 8 k.fsize, objectBytes e 8 (int64Bits k.offset), ?_, rfl, rfl,
    objectBytes_length _ _ _, objectBytes_length _ _ _, ?_, ?_, CacheKey.encode_length e k,
    ?_, ?_⟩
  · rw [CacheKey.encode_eq, toSizeT_of_lt _ hs]
  · rw [valueOf_objectBytes]
    exact Nat.mod_eq_of_lt (by norm_num; exact hs)
  · rw [valueOf_objectBytes, Nat.mod_eq_of_lt (by norm_num; exact int64Bits_lt _),
      int64Bits_cast]
    split <;> omega
  · rw [CacheKey.encode_eq, List.append_assoc]
    exact List.prefix_append _ _
  · rw [CacheKey.encode_eq, List.append_assoc]
    simp

/-- C2: `encode` is injective on cache keys whose fields hold a `size_t` and an `int64_t`:
two keys have the same encoding exactly when they agree on `fname`, `fsize` and `offset`. -/
theorem CacheKey.encode_injective (e : ByteOrder) (k1 k2 : CacheKey)
    (h1 : k1.inRange) (h2 : k2.inRange) :
    k1.encode e = k2.encode e ↔
      (k1.fname = k2.fname ∧ k1.fsize = k2.fsize ∧ k1.offset = k2.offset) := by
  constructor
  · intro h
    rw [CacheKey.encode_eq, CacheKey.encode_eq] at h
    have hB : (objectBytes e 8 (int64Bits k1.offset)).length
        = (objectBytes e 8 (int64Bits k2.offset)).length := by
      simp [objectBytes_length]
    obtain ⟨hAB, hO⟩ := List.append_inj' h hB
    have hA : (objectBytes e 8 (toSizeT k1.fsize)).length
        = (objectBytes e 8 (toSizeT k2.fsize)).length := by
      simp [objectBytes_length]
    obtain ⟨hN, hS⟩ := List.append_inj' hAB hA
    have hs := objectBytes_inj e 8 _ _ hS
    have ho := objectBytes_inj e 8 _ _ hO
    obtain ⟨hs1, hlo1, hhi1⟩ := h1
    obtain ⟨hs2, hlo2, hhi2⟩ := h2
    rw [toSizeT_of_lt _ hs1, toSizeT_of_lt _ hs2] at hs
    have b1 := int64Bits_cast k1.offset
    have b2 := int64Bits_cast k2.offset
    have l1 := int64Bits_lt k1.offset
    have l2 := int64Bits_lt k2.offset
    norm_num at hs ho l1 l2 b1 b2 hs1 hs2 hlo1 hlo2 hhi1 hhi2
    refine ⟨hN, by omega, by omega⟩
  · rintro ⟨hn, hs, ho⟩
    rw [CacheKey.encode_eq, CacheKey.encode_eq, hn, hs, ho]

/-- The witness of `CacheKey.encode_layout`: the key `("fa", 4096, -1)` on a little-endian
host. -/
theorem CacheKey.encode_layout_witness :
    (CacheKey.mk [102, 97] 4096 (-1)).inRange ∧
    ∃ s o : List Byte,
      (CacheKey.mk [102, 97] 4096 (-1)).encode .littleEndian = [102, 97] ++ s ++ o ∧
      s = objectBytes .littleEndian 8 4096 ∧
      o = objectBytes .littleEndian 8 (int64Bits (-1)) ∧
      s.length = 8 ∧ o.length = 8 ∧
      valueOf .littleEndian s = 4096 ∧
      (valueOf .littleEndian o : Int) = (if (0 : Int) ≤ -1 then -1 else -1 + 2 ^ 64) ∧
      ((CacheKey.mk [102, 97] 4096 (-1)).encode .littleEndian).length
        = ([102, 97] : List Byte).length + 16 ∧
      ([102, 97] : List Byte) <+: (CacheKey.mk [102, 97] 4096 (-1)).encode .littleEndian ∧
      ((CacheKey.mk [102, 97] 4096 (-1)).encode .littleEndian).take
        ([102, 97] : List Byte).length = [102, 97] :=
  ⟨by decide, CacheKey.encode_layout .littleEndian ⟨[102, 97], 4096, -1⟩ (by decide)⟩

/-- The witness of `CacheKey.encode_injective`: two keys that differ only in the file
size. -/
theorem CacheKey.encode_injective_witness :
    (CacheKey.mk [102, 97] 4096 0).inRange ∧ (CacheKey.mk [102, 97] 8192 0).inRange ∧
    ((CacheKey.mk [102, 97] 4096 0).encode .littleEndian
        = (CacheKey.mk [102, 97] 8192 0).encode .littleEndian ↔
      (([102, 97] : List Byte) = [102, 97] ∧ (4096 : Nat) = 8192 ∧ (0 : Int) = 0)) :=
  ⟨by decide, by decide,
    CacheKey.encode_injective .littleEndian ⟨[102, 97], 4096, 0⟩ ⟨[102, 97], 8192, 0⟩
      (by decide) (by decide)⟩

/-! ## Order of the encodings -/

theorem lex_append_of_not_prefix {a b : List Byte} (h : List.Lex (· < ·) a b)
    (hp : ¬ a <+: b) (s t : List Byte) : List.Lex (· < ·) (a ++ s) (b ++ t) := by
  induction h with
  | nil => exact absurd (List.nil_prefix) hp
  | cons _ ih =>
    rw [List.cons_append, List.cons_append]
    apply List.Lex.cons
    apply ih
    intro hpre
    apply hp
    rw [List.cons_prefix_cons]
    exact ⟨rfl, hpre⟩
  | rel hr =>
    exact List.Lex.rel hr

theorem lex_append_left (a : List Byte) {t u : List Byte} (h : List.Lex (· < ·) t u) :
    List.Lex (· < ·) (a ++ t) (a ++ u) := by
  induction a with
  | nil => simpa using h
  | cons x a ih => exact List.Lex.cons ih

theorem lex_append_of_length_eq {s t : List Byte} (h : List.Lex (· < ·) s t)
    (hl : s.length = t.length) (o p : List Byte) :
    List.Lex (· < ·) (s ++ o) (t ++ p) := by
  induction h with
  | nil => simp at hl
  | cons _ ih =>
    rw [List.cons_append, List.cons_append]
    exact List.Lex.cons (ih (by simpa using hl))
  | rel hr => exact List.Lex.rel hr

theorem objectBytes_big_succ (n v : Nat) :
    objectBytes .bigEndian (n + 1) v = byteAt v n :: objectBytes .bigEndian n v := by
  simp [objectBytes, List.range_succ]

theorem objectBytes_big_lt (n : Nat) : ∀ v w : Nat, v % 256 ^ n < w % 256 ^ n →
    List.Lex (· < ·) (objectBytes .bigEndian n v) (objectBytes .bigEndian n w) := by
  induction n with
  | zero => intro v w h; simp [Nat.mod_one] at h
  | succ n ih =>
    intro v w h
    rw [objectBytes_big_succ, objectBytes_big_succ]
    rw [Nat.mod_pow_succ, Nat.mod_pow_succ] at h
    have hv : v % 256 ^ n < 256 ^ n := Nat.mod_lt _ (by positivity)
    have hw : w % 256 ^ n < 256 ^ n := Nat.mod_lt _ (by positivity)
    rcases Nat.lt_trichotomy (v / 256 ^ n % 256) (w / 256 ^ n % 256) with hlt | heq | hgt
    · exact List.Lex.rel (by simpa [byteAt, Fin.lt_def] using hlt)
    · have hb : byteAt v n = byteAt w n := Fin.ext (by simpa [byteAt] using heq)
      rw [hb]
      apply List.Lex.cons
      apply ih
      rw [heq] at h
      omega
    · exfalso
      have : 256 ^ n * (w / 256 ^ n % 256 + 1) ≤ 256 ^ n * (v / 256 ^ n % 256) :=
        Nat.mul_le_mul_left _ hgt
      rw [Nat.mul_add, Nat.mul_one] at this
      omega

/-- C8, refuted as stated: three pairs of keys in increasing tuple order whose encodings
are not in increasing bytewise order. `("a", 2^64-1, 0)` and `("ab", 0, 0)`, where one name
is a proper prefix of the other, on either byte order; `("a", 255, 0)` and `("a", 256, 0)`
on a little-endian host; `("a", 0, -1)` and `("a", 0, 0)`, offsets of different sign, on
either byte order. -/
theorem CacheKey.encode_order_counterexample :
    ((CacheKey.mk [97] (2 ^ 64 - 1) 0).inRange ∧ (CacheKey.mk [97, 98] 0 0).inRange ∧
      (CacheKey.mk [97] (2 ^ 64 - 1) 0).tupleLt (CacheKey.mk [97, 98] 0 0) ∧
      ¬ List.Lex (· < ·) ((CacheKey.mk [97] (2 ^ 64 - 1) 0).encode .littleEndian)
          ((CacheKey.mk [97, 98] 0 0).encode .littleEndian) ∧
      ¬ List.Lex (· < ·) ((CacheKey.mk [97] (2 ^ 64 - 1) 0).encode .bigEndian)
          ((CacheKey.mk [97, 98] 0 0).encode .bigEndian)) ∧
    ((CacheKey.mk [97] 255 0).inRange ∧ (CacheKey.mk [97] 256 0).inRange ∧
      (CacheKey.mk [97] 255 0).tupleLt (CacheKey.mk [97] 256 0) ∧
      ¬ List.Lex (· < ·) ((CacheKey.mk [97] 255 0).encode .littleEndian)
          ((CacheKey.mk [97] 256 0).encode .littleEndian)) ∧
    ((CacheKey.mk [97] 0 (-1)).inRange ∧ (CacheKey.mk [97] 0 0).inRange ∧
      (CacheKey.mk [97] 0 (-1)).tupleLt (CacheKey.mk [97] 0 0) ∧
      ¬ List.Lex (· < ·) ((CacheKey.mk [97] 0 (-1)).encode .littleEndian)
          ((CacheKey.mk [97] 0 0).encode .littleEndian) ∧
      ¬ List.Lex (· < ·) ((CacheKey.mk [97] 0 (-1)).encode .bigEndian)
          ((CacheKey.mk [97] 0 0).encode .bigEndian)) := by
  decide

/-- C8, amended: `encode` carries the bytewise order of the file names over to the
encodings whenever the smaller name is not a prefix of the larger one (so for names of
equal length), whatever the sizes, offsets and byte order; and for equal names on a
big-endian host it carries over the numeric order of `fsize`, and for equal `fsize` the
numeric order of offsets of the same sign. -/
theorem CacheKey.encode_order_amended (e : ByteOrder) (k1 k2 : CacheKey)
    (h1 : k1.inRange) (h2 : k2.inRange)
    (h : (List.Lex (· < ·) k1.fname k2.fname ∧ ¬ k1.fname <+: k2.fname) ∨
      (e = .bigEndian ∧ k1.fname = k2.fname ∧
        (k1.fsize < k2.fsize ∨
          (k1.fsize = k2.fsize ∧ k1.offset < k2.offset ∧
            (0 ≤ k1.offset ↔ 0 ≤ k2.offset))))) :
    List.Lex (· < ·) (k1.encode e) (k2.encode e) := by
  obtain ⟨hs1, hlo1, hhi1⟩ := h1
  obtain ⟨hs2, hlo2, hhi2⟩ := h2
  rw [CacheKey.encode_eq, CacheKey.encode_eq, List.append_assoc, List.append_assoc]
  rcases h with ⟨hlt, hnp⟩ | ⟨he, hn, hnum⟩
  · exact lex_append_of_not_prefix hlt hnp _ _
  · subst he
    rw [hn]
    apply lex_append_left
    rcases hnum with hf | ⟨hf, ho, hsign⟩
    · apply lex_append_of_length_eq _ (by simp [objectBytes_length])
      apply objectBytes_big_lt
      rw [toSizeT_of_lt _ hs1, toSizeT_of_lt _ hs2]
      norm_num at hs1 hs2 ⊢
      omega
    · rw [hf]
      apply lex_append_left
      apply objectBytes_big_lt
      have b1 := int64Bits_cast k1.offset
      have b2 := int64Bits_cast k2.offset
      have l1 := int64Bits_lt k1.offset
      have l2 := int64Bits_lt k2.offset
      norm_num at l1 l2 b1 b2 hlo1 hlo2 hhi1 hhi2 ⊢
      omega

/-- The witness of `CacheKey.encode_order_amended`: `("aa", 9, 5)` and `("ab", 1, -3)` on a
little-endian host. -/
theorem CacheKey.encode_order_amended_witness :
    (CacheKey.mk [97, 97] 9 5).inRange ∧ (CacheKey.mk [97, 98] 1 (-3)).inRange ∧
    List.Lex (· < ·) ([97, 97] : List Byte) [97, 98] ∧
    ¬ ([97, 97] : List Byte) <+: [97, 98] ∧
    List.Lex (· < ·) ((CacheKey.mk [97, 97] 9 5).encode .littleEndian)
      ((CacheKey.mk [97, 98] 1 (-3)).encode .littleEndian) :=
  ⟨by decide, by decide, by decide, by decide,
    CacheKey.encode_order_amended .littleEndian ⟨[97, 97], 9, 5⟩ ⟨[97, 98], 1, -3⟩
      (by decide) (by decide) (Or.inl ⟨by decide, by decide⟩)⟩

/-! ## Page-type routing -/

/-- C3: with pairwise different case labels, `_get_page_cache` returns the data-page policy
for `DATA_PAGE`, the index-page policy for `INDEX_PAGE` and the primary-key-index policy
for `PRIMARY_KEY_INDEX_PAGE`; for every other `page_type` it throws the fatal error
"get error type page cache" and returns no policy, and `mem_tracker` fails the same way. -/
theorem StoragePageCache.get_page_cache_total {Policy Tracker : Type} (l : PageTypeLabels)
    (c : StoragePageCache Policy) (f : Policy → Tracker) (hl : l.distinct) :
    c._get_page_cache l l.DATA_PAGE = .ok c._data_page_cache ∧
    c._get_page_cache l l.INDEX_PAGE = .ok c._index_page_cache ∧
    c._get_page_cache l l.PRIMARY_KEY_INDEX_PAGE = .ok c._pk_index_page_cache ∧
    (∀ page_type : Int, page_type ≠ l.DATA_PAGE → page_type ≠ l.INDEX_PAGE →
      page_type ≠ l.PRIMARY_KEY_INDEX_PAGE →
        c._get_page_cache l page_type = .error ⟨"get error type page cache"⟩ ∧
        (∀ p : Policy, c._get_page_cache l page_type ≠ .ok p) ∧
        c.mem_tracker l f page_type = .error ⟨"get error type page cache"⟩) ∧
    c.mem_tracker l f l.DATA_PAGE = .ok (f c._data_page_cache) ∧
    c.mem_tracker l f l.INDEX_PAGE = .ok (f c._index_page_cache) ∧
    c.mem_tracker l f l.PRIMARY_KEY_INDEX_PAGE = .ok (f c._pk_index_page_cache) := by
  obtain ⟨h12, h13, h23⟩ := hl
  have e1 : c._get_page_cache l l.DATA_PAGE = .ok c._data_page_cache := by
    simp [StoragePageCache._get_page_cache, StoragePageCache.switch_page_type]
  have e2 : c._get_page_cache l l.INDEX_PAGE = .ok c._index_page_cache := by
    simp [StoragePageCache._get_page_cache, StoragePageCache.switch_page_type, Ne.symm h12]
  have e3 : c._get_page_cache l l.PRIMARY_KEY_INDEX_PAGE = .ok c._pk_index_page_cache := by
    simp [StoragePageCache._get_page_cache, StoragePageCache.switch_page_type, Ne.symm h13,
      Ne.symm h23]
  refine ⟨e1, e2, e3, ?_, ?_, ?_, ?_⟩
  · intro page_type n1 n2 n3
    have e4 : c._get_page_cache l page_type = .error ⟨"get error type page cache"⟩ := by
      simp [StoragePageCache._get_page_cache, StoragePageCache.switch_page_type, n1, n2, n3]
    refine ⟨e4, ?_, ?_⟩
    · intro p hp
      rw [e4] at hp
      cases hp
    · simp [StoragePageCache.mem_tracker, e4]
  · simp [StoragePageCache.mem_tracker, e1]
  · simp [StoragePageCache.mem_tracker, e2]
  · simp [StoragePageCache.mem_tracker, e3]

/-- The witness of `StoragePageCache.get_page_cache_total`: the labels 1, 2 and 5, three
policies numbered 10, 20 and 30, and the page types 1, 2, 5 and 3. -/
theorem StoragePageCache.get_page_cache_total_witness :
    (PageTypeLabels.mk 1 2 5).distinct ∧
    (StoragePageCache.mk 0 10 20 30 : StoragePageCache Nat)._get_page_cache
      (PageTypeLabels.mk 1 2 5) 1 = .ok 10 ∧
    (StoragePageCache.mk 0 10 20 30 : StoragePageCache Nat)._get_page_cache
      (PageTypeLabels.mk 1 2 5) 2 = .ok 20 ∧
    (StoragePageCache.mk 0 10 20 30 : StoragePageCache Nat)._get_page_cache
      (PageTypeLabels.mk 1 2 5) 5 = .ok 30 ∧
    (StoragePageCache.mk 0 10 20 30 : StoragePageCache Nat)._get_page_cache
      (PageTypeLabels.mk 1 2 5) 3 = .error ⟨"get error type page cache"⟩ :=
  have h := StoragePageCache.get_page_cache_total (PageTypeLabels.mk 1 2 5)
    (StoragePageCache.mk 0 10 20 30 : StoragePageCache Nat) (fun p => p + 1)
    ⟨by decide, by decide, by decide⟩
  ⟨⟨by decide, by decide, by decide⟩, h.1, h.2.1, h.2.2.1,
    (h.2.2.2.1 3 (by decide) (by decide) (by decide)).1⟩

/-! ## The scoped handle -/

/-- C4: destroying a handle that holds a policy and a non-null entry makes exactly one
call, `release(entry)` on that policy; destroying a handle whose entry pointer is null, in
particular a default-constructed one, makes no call. -/
theorem PageCacheHandle.dtor_releases_once {Cache Entry : Type} [DecidableEq Cache]
    [DecidableEq Entry] (cache : Cache) (entry : Entry) :
    (PageCacheHandle.ctor (some cache) (some entry)).dtor
      = some [CacheCall.release cache entry] ∧
    (∀ calls, (PageCacheHandle.ctor (some cache) (some entry)).dtor = some calls →
      calls.count (CacheCall.release cache entry) = 1 ∧ calls.length = 1) ∧
    (PageCacheHandle.default_ctor Cache Entry).dtor = some [] ∧
    (∀ c : Option Cache, (PageCacheHandle.ctor c (none : Option Entry)).dtor = some []) := by
  refine ⟨rfl, ?_, rfl, ?_⟩
  · intro calls h
    have h2 : calls = [CacheCall.release cache entry] := by
      simpa [PageCacheHandle.ctor, PageCacheHandle.dtor] using h.symm
    subst h2
    simp
  · intro c
    rfl

/-- C5: move assignment exchanges the two handles, `dst` ends with the pair `src` held and
`src` with the pair `dst` held; move construction gives the new handle the pair `src` held
and leaves `src` with the pair of a fresh handle. The entry references held by the two
handles together are the same before and after. -/
theorem PageCacheHandle.move_is_swap {Cache Entry : Type}
    (dst src : PageCacheHandle Cache Entry) :
    PageCacheHandle.move_assign dst src = (src, dst) ∧
    PageCacheHandle.move_ctor src = (src, PageCacheHandle.default_ctor Cache Entry) ∧
    (heldEntries [(PageCacheHandle.move_assign dst src).1,
        (PageCacheHandle.move_assign dst src).2]).Perm (heldEntries [dst, src]) ∧
    heldEntries [(PageCacheHandle.move_ctor src).1, (PageCacheHandle.move_ctor src).2]
      = heldEntries [src] := by
  have ha : PageCacheHandle.move_assign dst src = (src, dst) := rfl
  have hc : PageCacheHandle.move_ctor src
      = (src, PageCacheHandle.default_ctor Cache Entry) := rfl
  refine ⟨ha, hc, ?_, ?_⟩
  · rw [ha]
    obtain ⟨dc, dh⟩ := dst
    obtain ⟨sc, sh⟩ := src
    cases dc <;> cases dh <;> cases sc <;> cases sh <;>
      simp [heldEntries, List.Perm.swap]
  · rw [hc]
    obtain ⟨sc, sh⟩ := src
    cases sc <;> cases sh <;> simp [heldEntries, PageCacheHandle.default_ctor]

/-- C6, refuted as stated: move-assigning to a handle that holds `(policy 1, entry 10)`
from one that holds `(policy 2, entry 20)` leaves the source holding entry 10, not null. -/
theorem PageCacheHandle.move_assign_source_not_emptied :
    (PageCacheHandle.move_assign (PageCacheHandle.ctor (some 1) (some 10))
      (PageCacheHandle.ctor (some 2) (some 20)) :
        PageCacheHandle Nat Nat × PageCacheHandle Nat Nat).2._handle = some 10 ∧
    (PageCacheHandle.move_assign (PageCacheHandle.ctor (some 1) (some 10))
      (PageCacheHandle.ctor (some 2) (some 20)) :
        PageCacheHandle Nat Nat × PageCacheHandle Nat Nat).2._handle ≠ none := by
  decide

/-- C6, amended: after either move the destination holds what the source held. Move
construction leaves the source with null pointers. Move assignment leaves the source with
what the destination held, so its entry pointer is null exactly when the destination's
was. -/
theorem PageCacheHandle.move_transfers {Cache Entry : Type}
    (dst src : PageCacheHandle Cache Entry) :
    (PageCacheHandle.move_ctor src).1 = src ∧
    (PageCacheHandle.move_ctor src).2._handle = none ∧
    (PageCacheHandle.move_ctor src).2._cache = none ∧
    (PageCacheHandle.move_assign dst src).1 = src ∧
    (PageCacheHandle.move_assign dst src).2 = dst ∧
    ((PageCacheHandle.move_assign dst src).2._handle = none ↔ dst._handle = none) :=
  ⟨rfl, rfl, rfl, rfl, rfl, Iff.rfl⟩

/-! ## The owned-buffer page -/

/-- C7: for `n ≤ capacity()`, `reset_size(n)` succeeds in either build and leaves
`size() = n`, the capacity and the buffer unchanged, hence `size() ≤ capacity()`; for
`n > capacity()` the condition of the `DCHECK` is false and a build that evaluates it
stops there. -/
theorem MemoryTrackedPageWithPageEntity.reset_size_spec (dcheck_on : Bool)
    (p : MemoryTrackedPageWithPageEntity) (n : Nat) :
    (n ≤ p.capacity →
      ∃ q, p.reset_size dcheck_on n = .ok q ∧ q.size = n ∧ q.capacity = p.capacity ∧
        q._data = p._data ∧ q.size ≤ q.capacity) ∧
    (p.capacity < n →
      p.reset_size true n = .error ⟨"n <= this->_capacity"⟩) := by
  constructor
  · intro h
    have h2 : n ≤ p._capacity := h
    refine ⟨{ p with _size := n }, ?_, rfl, rfl, rfl, h⟩
    simp [MemoryTrackedPageWithPageEntity.reset_size, h2]
  · intro h
    have h2 : ¬ n ≤ p._capacity := Nat.not_le.mpr h
    simp [MemoryTrackedPageWithPageEntity.reset_size, h2]

/-- The witness of `MemoryTrackedPageWithPageEntity.reset_size_spec`: a page of capacity 100
shrunk to 40 bytes, and asked for 101 bytes. -/
theorem MemoryTrackedPageWithPageEntity.reset_size_spec_witness :
    (40 ≤ (MemoryTrackedPageWithPageEntity.mk 4096 100 100).capacity ∧
      ∃ q, (MemoryTrackedPageWithPageEntity.mk 4096 100 100).reset_size false 40 = .ok q ∧
        q.size = 40 ∧ q.capacity = (MemoryTrackedPageWithPageEntity.mk 4096 100 100).capacity ∧
        q._data = (MemoryTrackedPageWithPageEntity.mk 4096 100 100)._data ∧
        q.size ≤ q.capacity) ∧
    ((MemoryTrackedPageWithPageEntity.mk 4096 100 100).capacity < 101 ∧
      (MemoryTrackedPageWithPageEntity.mk 4096 100 100).reset_size true 101
        = .error ⟨"n <= this->_capacity"⟩) :=
  ⟨⟨by decide,
      (MemoryTrackedPageWithPageEntity.reset_size_spec false
        (MemoryTrackedPageWithPageEntity.mk 4096 100 100) 40).1 (by decide)⟩,
    ⟨by decide,
      (MemoryTrackedPageWithPageEntity.reset_size_spec true
        (MemoryTrackedPageWithPageEntity.mk 4096 100 100) 101).2 (by decide)⟩⟩

/-! ## The `collect` factory -/

theorem DISPATCH_eq {env : TypeEnv} {R : Type} (i : env.TypeIndex) (ret : ElemType env → R)
    (types : List env.TypeIndex) :
    DISPATCH i ret types = if i ∈ types then some (ret (.named i)) else none := by
  induction types with
  | nil => simp [DISPATCH]
  | cons t ts ih =>
    simp only [DISPATCH, List.mem_cons]
    by_cases h : i = t
    · subst h; simp
    · simp [h, ih]

theorem create_aggregate_function_collect_impl_cons {env : TypeEnv} {Fn : Type}
    (create : Creator env Fn) (HasLimit : Bool) (name : String) (t0 : env.DataTypePtr)
    (rest : List env.DataTypePtr) (r : Bool) :
    ∃ T : ElemType env,
      create_aggregate_function_collect_impl create HasLimit name (t0 :: rest) r
        = some (do_create_agg_function_collect create T HasLimit (name == "collect_set")
            (t0 :: rest) r) ∧
      (T.is_void = true ↔ unsupported_for_set env t0) := by
  simp only [create_aggregate_function_collect_impl, List.getElem?_cons_zero, DISPATCH_eq,
    unsupported_for_set]
  by_cases h1 : env.idx (env.remove_nullable t0) ∈ env.FOR_NUMERIC_TYPES
  · exact ⟨.named (env.idx (env.remove_nullable t0)), by simp [h1], by simp [ElemType.is_void, h1]⟩
  by_cases h2 : env.idx (env.remove_nullable t0) ∈ env.FOR_DECIMAL_TYPES
  · exact ⟨.named (env.idx (env.remove_nullable t0)), by simp [h1, h2], by simp [ElemType.is_void, h2]⟩
  by_cases h3 : env.is_date_or_datetime (env.idx (env.remove_nullable t0)) = true
  · exact ⟨.Int64, by simp [h1, h2, h3], by simp [ElemType.is_void, h3]⟩
  by_cases h4 : env.is_date_v2 (env.idx (env.remove_nullable t0)) = true
  · exact ⟨.UInt32, by simp [h1, h2, h3, h4], by simp [ElemType.is_void, h4]⟩
  by_cases h5 : env.is_date_time_v2 (env.idx (env.remove_nullable t0)) = true
  · exact ⟨.UInt64, by simp [h1, h2, h3, h4, h5], by simp [ElemType.is_void, h5]⟩
  by_cases h6 : env.is_ipv6 (env.idx (env.remove_nullable t0)) = true
  · exact ⟨.IPv6, by simp [h1, h2, h3, h4, h5, h6], by simp [ElemType.is_void, h6]⟩
  by_cases h7 : env.is_ipv4 (env.idx (env.remove_nullable t0)) = true
  · exact ⟨.IPv4, by simp [h1, h2, h3, h4, h5, h6, h7], by simp [ElemType.is_void, h7]⟩
  by_cases h8 : env.is_string (env.idx (env.remove_nullable t0)) = true
  · exact ⟨.StringRef, by simp [h1, h2, h3, h4, h5, h6, h7, h8],
      by simp [ElemType.is_void, h8]⟩
  · exact ⟨.void, by simp [h1, h2, h3, h4, h5, h6, h7, h8],
      by simp [ElemType.is_void, h1, h2, h3, h4, h5, h6, h7, h8]⟩


theorem do_create_agg_function_collect_ok {env : TypeEnv} {Fn : Type}
    (create : Creator env Fn) (T : ElemType env) (HasLimit distinct : Bool)
    (a : List env.DataTypePtr) (r : Bool) (h : ¬ (distinct = true ∧ T.is_void = true)) :
    do_create_agg_function_collect create T HasLimit distinct a r
      = create ⟨if distinct then .AggregateFunctionCollectSetData
          else .AggregateFunctionCollectListData, T, HasLimit⟩ a r := by
  unfold do_create_agg_function_collect
  cases distinct <;> cases hv : T.is_void <;> simp_all

theorem do_create_agg_function_collect_void {env : TypeEnv} {Fn : Type}
    (create : Creator env Fn) (T : ElemType env) (HasLimit : Bool)
    (a : List env.DataTypePtr) (r : Bool) (h : T.is_void = true) :
    do_create_agg_function_collect create T HasLimit true a r
      = .error ⟨env.INTERNAL_ERROR, "unexpected type for collect, please check the input"⟩ := by
  simp [do_create_agg_function_collect, h]

/-- C10: when the creator never fails, `create_aggregate_function_collect` always has a
defined outcome (the first argument type is read only from a vector of one or two types).
It throws exactly when the number of argument types is neither 1 nor 2, or the name is
"collect_set" and the first argument type, nullability removed, is none of numeric,
decimal, date or datetime, date-v2, datetime-v2, IPv4, IPv6 or string; what it throws is
then `INTERNAL_ERROR`. In every other case it returns the function the creator makes for
the set data when the name is "collect_set" and for the list data otherwise, with the limit
exactly when there are 2 argument types. -/
theorem create_aggregate_function_collect_spec {env : TypeEnv} {Fn : Type}
    (create : Creator env Fn) (name : String) (argument_types : List env.DataTypePtr)
    (result_is_nullable : Bool)
    (hcreate : ∀ t a r, ∃ f, create t a r = .ok f) :
    (∃ res, create_aggregate_function_collect create name argument_types result_is_nullable
      = some res) ∧
    ((∃ x, create_aggregate_function_collect create name argument_types result_is_nullable
        = some (.error x)) ↔
      ((argument_types.length ≠ 1 ∧ argument_types.length ≠ 2) ∨
        (name = "collect_set" ∧
          ∃ t0, argument_types.head? = some t0 ∧ unsupported_for_set env t0))) ∧
    (∀ x, create_aggregate_function_collect create name argument_types result_is_nullable
        = some (.error x) →
      x.code = env.INTERNAL_ERROR ∧
        x.msg = "unexpected type for collect, please check the input") ∧
    (¬ ((argument_types.length ≠ 1 ∧ argument_types.length ≠ 2) ∨
        (name = "collect_set" ∧
          ∃ t0, argument_types.head? = some t0 ∧ unsupported_for_set env t0)) →
      ∃ (T : ElemType env) (f : Fn),
        create_aggregate_function_collect create name argument_types result_is_nullable
          = some (.ok f) ∧
        create ⟨if name = "collect_set" then .AggregateFunctionCollectSetData
            else .AggregateFunctionCollectListData, T, decide (argument_types.length = 2)⟩
          argument_types result_is_nullable = .ok f) := by
  -- the shape of the result in the two accepted arities
  have key : ∀ (L : Bool) (t0 : env.DataTypePtr) (rest : List env.DataTypePtr),
      (name = "collect_set" ∧ unsupported_for_set env t0 ∧
        create_aggregate_function_collect_impl create L name (t0 :: rest) result_is_nullable
          = some (.error ⟨env.INTERNAL_ERROR,
              "unexpected type for collect, please check the input"⟩)) ∨
      (¬ (name = "collect_set" ∧ unsupported_for_set env t0) ∧
        ∃ (T : ElemType env) (f : Fn),
          create_aggregate_function_collect_impl create L name (t0 :: rest)
            result_is_nullable = some (.ok f) ∧
          create ⟨if name = "collect_set" then .AggregateFunctionCollectSetData
            else .AggregateFunctionCollectListData, T, L⟩ (t0 :: rest) result_is_nullable
            = .ok f) := by
    intro L t0 rest
    obtain ⟨T, hT, hvoid⟩ :=
      create_aggregate_function_collect_impl_cons create L name t0 rest result_is_nullable
    by_cases hbad : name = "collect_set" ∧ unsupported_for_set env t0
    · left
      refine ⟨hbad.1, hbad.2, ?_⟩
      rw [hT]
      have hd : (name == "collect_set") = true := by simp [hbad.1]
      rw [hd, do_create_agg_function_collect_void create T L _ _ (hvoid.mpr hbad.2)]
    · right
      refine ⟨hbad, ?_⟩
      have hok : ¬ ((name == "collect_set") = true ∧ T.is_void = true) := by
        rintro ⟨hn, hv⟩
        exact hbad ⟨by simpa using hn, hvoid.mp hv⟩
      rw [hT, do_create_agg_function_collect_ok create T L _ _ _ hok]
      obtain ⟨f, hf⟩ := hcreate ⟨if (name == "collect_set") = true
        then .AggregateFunctionCollectSetData
        else .AggregateFunctionCollectListData, T, L⟩ (t0 :: rest) result_is_nullable
      refine ⟨T, f, by rw [hf], ?_⟩
      simpa using hf
  match argument_types with
  | [] =>
    simp [create_aggregate_function_collect]
  | [t0] =>
    rcases key false t0 [] with ⟨hn, hu, hr⟩ | ⟨hbad, T, f, hr, hf⟩
    · simp only [create_aggregate_function_collect, List.length_singleton, if_true, hr]
      refine ⟨⟨_, rfl⟩, ?_, ?_, ?_⟩
      · simp [hn, hu]
      · intro x hx
        simp only [Option.some.injEq, Except.error.injEq] at hx
        subst hx
        exact ⟨rfl, rfl⟩
      · intro hneg
        exact absurd (Or.inr ⟨hn, t0, rfl, hu⟩) hneg
    · simp only [create_aggregate_function_collect, List.length_singleton, if_true, hr]
      refine ⟨⟨_, rfl⟩, ?_, ?_, ?_⟩
      · simp
        intro hn
        exact fun hu => hbad ⟨hn, hu⟩
      · simp
      · intro _
        exact ⟨T, f, rfl, by simpa using hf⟩
  | [t0, t1] =>
    rcases key true t0 [t1] with ⟨hn, hu, hr⟩ | ⟨hbad, T, f, hr, hf⟩
    · simp only [create_aggregate_function_collect, List.length_cons, List.length_singleton,
        List.length_nil, hr]
      refine ⟨⟨_, rfl⟩, ?_, ?_, ?_⟩
      · simp [hn, hu]
      · intro x hx
        simp only [Nat.reduceAdd, Nat.reduceEqDiff, if_false, if_true, Option.some.injEq,
          Except.error.injEq] at hx
        subst hx
        exact ⟨rfl, rfl⟩
      · intro hneg
        exact absurd (Or.inr ⟨hn, t0, rfl, hu⟩) hneg
    · simp only [create_aggregate_function_collect, List.length_cons, List.length_singleton,
        List.length_nil, hr]
      refine ⟨⟨_, rfl⟩, ?_, ?_, ?_⟩
      · simp
        intro hn
        exact fun hu => hbad ⟨hn, hu⟩
      · simp
      · intro _
        exact ⟨T, f, by simp, by simpa using hf⟩
  | _ :: _ :: _ :: _ =>
    simp [create_aggregate_function_collect]


/-- The witness of `create_aggregate_function_collect_spec`: "collect_set" over one argument
of an unsupported type, with a creator that always succeeds. -/
theorem create_aggregate_function_collect_spec_witness :
    (∀ t a r, ∃ f, sampleCreate t a r = .ok f) ∧
    (∃ res, create_aggregate_function_collect sampleCreate "collect_set" sampleArgs false
      = some res) ∧
    ((∃ x, create_aggregate_function_collect sampleCreate "collect_set" sampleArgs false
        = some (.error x)) ↔
      ((sampleArgs.length ≠ 1 ∧ sampleArgs.length ≠ 2) ∨
        ("collect_set" = "collect_set" ∧
          ∃ t0, sampleArgs.head? = some t0 ∧ unsupported_for_set sampleEnv t0))) ∧
    (∀ x, create_aggregate_function_collect sampleCreate "collect_set" sampleArgs false
        = some (.error x) →
      x.code = sampleEnv.INTERNAL_ERROR ∧
        x.msg = "unexpected type for collect, please check the input") ∧
    (¬ ((sampleArgs.length ≠ 1 ∧ sampleArgs.length ≠ 2) ∨
        ("collect_set" = "collect_set" ∧
          ∃ t0, sampleArgs.head? = some t0 ∧ unsupported_for_set sampleEnv t0)) →
      ∃ (T : ElemType sampleEnv) (f : CollectData × Bool × Nat),
        create_aggregate_function_collect sampleCreate "collect_set" sampleArgs false
          = some (.ok f) ∧
        sampleCreate ⟨if "collect_set" = "collect_set" then .AggregateFunctionCollectSetData
            else .AggregateFunctionCollectListData, T, decide (sampleArgs.length = 2)⟩
          sampleArgs false = .ok f) :=
  ⟨fun t a _ => ⟨(t.data, t.HasLimit, a.length), rfl⟩,
    create_aggregate_function_collect_spec sampleCreate "collect_set" sampleArgs false
      (fun t a _ => ⟨(t.data, t.HasLimit, a.length), rfl⟩)⟩

end doris
